import Mathlib

/-! Verification of the Data-Analysis-Journey repository.

This file shallowly embeds the statistical routines of
Project-AB-Testing/src/statistical_analysis.py, the simulated-data generator of
Project-AB-Testing/src/data_generator.py, and the cleaning step of
Project-User-Behavior-Analysis/src/data_cleaner.py, and proves the specified
properties about them.  Machine floats are modelled as exact rationals;
library transcendentals (numpy's square root, scipy's normal quantile and
chi-square survival function) are abstract function parameters; Python
exceptions are an explicit Except layer. -/

namespace DataAnalysis

/-- Observed counts of a 2 by 2 contingency table, as produced by
pd.crosstab(df['group'], df['clicked']): first row (a, b), second row (c, d). -/
structure Obs2x2 where
  a : ℕ
  b : ℕ
  c : ℕ
  d : ℕ
deriving DecidableEq, Repr

/-- Total of the first row of the table. -/
def Obs2x2.row1 (t : Obs2x2) : ℕ := t.a + t.b

/-- Total of the second row of the table. -/
def Obs2x2.row2 (t : Obs2x2) : ℕ := t.c + t.d

/-- Total of the first column of the table. -/
def Obs2x2.col1 (t : Obs2x2) : ℕ := t.a + t.c

/-- Total of the second column of the table. -/
def Obs2x2.col2 (t : Obs2x2) : ℕ := t.b + t.d

/-- Grand total of the table. -/
def Obs2x2.total (t : Obs2x2) : ℕ := t.a + t.b + t.c + t.d

/-- All four margins of the table are strictly positive. -/
def posMargins (t : Obs2x2) : Prop :=
  0 < t.row1 ∧ 0 < t.row2 ∧ 0 < t.col1 ∧ 0 < t.col2

instance : DecidablePred posMargins := fun t => by
  unfold posMargins; infer_instance

/-- Expected frequency of cell (1,1): row total times column total over grand
total, as scipy.stats.contingency.expected_freq computes it. -/
def expA (t : Obs2x2) : ℚ := (t.row1 * t.col1 : ℚ) / t.total

/-- Expected frequency of cell (1,2). -/
def expB (t : Obs2x2) : ℚ := (t.row1 * t.col2 : ℚ) / t.total

/-- Expected frequency of cell (2,1). -/
def expC (t : Obs2x2) : ℚ := (t.row2 * t.col1 : ℚ) / t.total

/-- Expected frequency of cell (2,2). -/
def expD (t : Obs2x2) : ℚ := (t.row2 * t.col2 : ℚ) / t.total

/-- Yates continuity adjustment of one observed cell, as
scipy.stats.chi2_contingency applies it when dof = 1 and correction=True
(the default, hence what chi_square_test and manual_power_analysis get):
the observed value moves toward the expected one by min(1/2, |expected -
observed|) in the direction sign(expected - observed). -/
def yatesAdjusted (o e : ℚ) : ℚ :=
  o + min (1 / 2) |e - o| * (if 0 < e - o then 1 else if e - o < 0 then -1 else 0)

/-- One cell's contribution (observed - expected)^2 / expected of the Pearson
sum computed by scipy.stats.power_divergence with the default lambda. -/
def cellTerm (o e : ℚ) : ℚ := (o - e) ^ 2 / e

/-- Error raised by scipy.stats.chi2_contingency when the internally computed
table of expected frequencies has a zero element. -/
inductive ScipyError where
  | zeroExpected
deriving DecidableEq, Repr

/-- Chi-square statistic of scipy.stats.chi2_contingency on a 2 by 2 table with
the default arguments, as called by chi_square_test and manual_power_analysis:
it raises ValueError when some expected frequency is zero, and otherwise (dof
being 1) applies the Yates continuity correction before the Pearson sum.
The all-zero table, on which the Python expected frequencies are NaN rather
than zero, is outside every property proved below. -/
def chi2_contingency (t : Obs2x2) : Except ScipyError ℚ :=
  if expA t = 0 ∨ expB t = 0 ∨ expC t = 0 ∨ expD t = 0 then
    .error .zeroExpected
  else
    .ok (cellTerm (yatesAdjusted t.a (expA t)) (expA t)
      + cellTerm (yatesAdjusted t.b (expB t)) (expB t)
      + cellTerm (yatesAdjusted t.c (expC t)) (expC t)
      + cellTerm (yatesAdjusted t.d (expD t)) (expD t))

/-- Result dictionary of chi_square_test (statistical_analysis.py, lines
20-33), with the expected-frequency list omitted. -/
structure Chi2TestResult where
  chi2_statistic : ℚ
  p_value : ℚ
  degrees_of_freedom : ℕ
deriving DecidableEq, Repr

/-- Embedding of chi_square_test: it passes the crosstab table to
scipy.stats.chi2_contingency and repackages the outcome.  The survival
function sf of the chi-square distribution with one degree of freedom, which
produces the p-value, is an abstract parameter. -/
def chi_square_test (sf : ℚ → ℚ) (t : Obs2x2) : Except ScipyError Chi2TestResult :=
  (chi2_contingency t).map fun s => ⟨s, sf s, 1⟩

/-- Written from the spec's words, for comparison with the source embedding:
the uncorrected Pearson statistic, the sum over the four cells of
(observed - expected)^2 / expected. -/
def pearsonSpec (t : Obs2x2) : ℚ :=
  cellTerm t.a (expA t) + cellTerm t.b (expB t)
    + cellTerm t.c (expC t) + cellTerm t.d (expD t)

/-- Closed form of one Yates-corrected cell:
(max(|observed - expected| - 1/2, 0))^2 / expected. -/
def yatesCellClosed (o e : ℚ) : ℚ := max (|o - e| - 1 / 2) 0 ^ 2 / e

/-- Closed form of the Yates-corrected statistic on the whole table. -/
def yatesStat (t : Obs2x2) : ℚ :=
  yatesCellClosed t.a (expA t) + yatesCellClosed t.b (expB t)
    + yatesCellClosed t.c (expC t) + yatesCellClosed t.d (expD t)

lemma yatesAdjusted_sub_sq (o e : ℚ) :
    (yatesAdjusted o e - e) ^ 2 = max (|o - e| - 1 / 2) 0 ^ 2 := by
  unfold yatesAdjusted
  rcases lt_trichotomy (e - o) 0 with hlt | heq | hgt
  · rw [if_neg (not_lt.mpr hlt.le), if_pos hlt, abs_of_neg hlt,
      abs_of_pos (by linarith : (0 : ℚ) < o - e)]
    rcases le_total (1 / 2 : ℚ) (-(e - o)) with h2 | h2
    · rw [min_eq_left h2, max_eq_left (by linarith)]
      ring
    · rw [min_eq_right h2, max_eq_right (by linarith)]
      ring
  · have ho : o = e := by linarith
    subst ho
    rw [max_eq_right (by simp : |o - o| - 1 / 2 ≤ (0 : ℚ))]
    simp
  · rw [if_pos hgt, abs_of_pos hgt, abs_of_neg (by linarith : o - e < (0 : ℚ))]
    rcases le_total (1 / 2 : ℚ) (e - o) with h2 | h2
    · rw [min_eq_left h2, max_eq_left (by linarith)]
      ring
    · rw [min_eq_right h2, max_eq_right (by linarith)]
      ring

lemma total_eq_rows (t : Obs2x2) : t.total = t.row1 + t.row2 := by
  simp [Obs2x2.total, Obs2x2.row1, Obs2x2.row2]; omega

lemma expected_pos (t : Obs2x2) (h : posMargins t) :
    0 < expA t ∧ 0 < expB t ∧ 0 < expC t ∧ 0 < expD t := by
  obtain ⟨h1, h2, h3, h4⟩ := h
  have htot : 0 < (t.total : ℚ) := by
    have ht : 0 < t.total := by
      rw [total_eq_rows]; omega
    exact_mod_cast ht
  have hr1 : 0 < (t.row1 : ℚ) := by exact_mod_cast h1
  have hr2 : 0 < (t.row2 : ℚ) := by exact_mod_cast h2
  have hc1 : 0 < (t.col1 : ℚ) := by exact_mod_cast h3
  have hc2 : 0 < (t.col2 : ℚ) := by exact_mod_cast h4
  exact ⟨div_pos (mul_pos hr1 hc1) htot, div_pos (mul_pos hr1 hc2) htot,
    div_pos (mul_pos hr2 hc1) htot, div_pos (mul_pos hr2 hc2) htot⟩

/-- Shared evaluation lemma: on a table with strictly positive margins,
chi2_contingency succeeds and returns the Yates-corrected statistic in closed
form. -/
lemma chi2_contingency_posMargins (t : Obs2x2) (h : posMargins t) :
    chi2_contingency t = .ok (yatesStat t) := by
  obtain ⟨hA, hB, hC, hD⟩ := expected_pos t h
  unfold chi2_contingency
  rw [if_neg (by push_neg; exact ⟨ne_of_gt hA, ne_of_gt hB, ne_of_gt hC, ne_of_gt hD⟩)]
  unfold yatesStat yatesCellClosed cellTerm
  rw [yatesAdjusted_sub_sq, yatesAdjusted_sub_sq, yatesAdjusted_sub_sq,
    yatesAdjusted_sub_sq]

/-- C1, counterexample.  The claim says the statistic returned by
chi_square_test equals the uncorrected Pearson sum on every table with
strictly positive margins.  On the table [[10, 10], [5, 15]] the code (scipy's
default continuity correction) returns 128/75 while the uncorrected Pearson
sum is 8/3, so the claim is false. -/
theorem c1_counterexample :
    posMargins ⟨10, 10, 5, 15⟩
      ∧ chi2_contingency ⟨10, 10, 5, 15⟩ = .ok (128 / 75)
      ∧ pearsonSpec ⟨10, 10, 5, 15⟩ = 8 / 3
      ∧ (128 / 75 : ℚ) ≠ 8 / 3 := by
  refine ⟨by decide, ?_, ?_, by norm_num⟩
  · rw [chi2_contingency_posMargins _ (by decide)]
    norm_num [yatesStat, yatesCellClosed, expA, expB, expC, expD,
      Obs2x2.row1, Obs2x2.row2, Obs2x2.col1, Obs2x2.col2, Obs2x2.total,
      abs_eq_max_neg, max_def, min_def]
  · norm_num [pearsonSpec, cellTerm, expA, expB, expC, expD,
      Obs2x2.row1, Obs2x2.row2, Obs2x2.col1, Obs2x2.col2, Obs2x2.total]

/-- C1, amended.  chi_square_test does apply a continuity correction: on every
2 by 2 table with strictly positive row and column totals, the statistic it
returns is the Yates-corrected Pearson statistic, the sum over the four cells
of (max(|observed - expected| - 1/2, 0))^2 / expected, with expected[i][j] =
row_total[i] * col_total[j] / grand_total. -/
theorem c1_yates_correction (sf : ℚ → ℚ) (t : Obs2x2) (h : posMargins t) :
    chi_square_test sf t = .ok ⟨yatesStat t, sf (yatesStat t), 1⟩ := by
  unfold chi_square_test
  rw [chi2_contingency_posMargins t h]
  rfl

/-- C1, witness for the amended theorem at the table [[10, 10], [5, 15]]. -/
theorem c1_yates_correction_witness :
    chi_square_test (fun _ => 1) ⟨10, 10, 5, 15⟩ = .ok ⟨128 / 75, 1, 1⟩ := by
  rw [c1_yates_correction (fun _ => 1) ⟨10, 10, 5, 15⟩ (by decide)]
  norm_num [yatesStat, yatesCellClosed, expA, expB, expC, expD,
    Obs2x2.row1, Obs2x2.row2, Obs2x2.col1, Obs2x2.col2, Obs2x2.total,
    abs_eq_max_neg, max_def, min_def]

lemma yatesCellClosed_nonneg (o e : ℚ) (he : 0 < e) : 0 ≤ yatesCellClosed o e :=
  div_nonneg (sq_nonneg _) he.le

lemma yatesCellClosed_eq_zero_iff (o e : ℚ) (he : 0 < e) :
    yatesCellClosed o e = 0 ↔ |o - e| ≤ 1 / 2 := by
  unfold yatesCellClosed
  rw [div_eq_zero_iff]
  constructor
  · rintro (hx | hx)
    · have h0 : max (|o - e| - 1 / 2) 0 = 0 :=
        (pow_eq_zero_iff (by norm_num : (2 : ℕ) ≠ 0)).mp hx
      have hle := max_eq_right_iff.mp h0
      linarith
    · exact absurd hx (ne_of_gt he)
  · intro hx
    left
    rw [max_eq_right (by linarith)]
    norm_num

lemma sum4_eq_zero_iff {a b c d : ℚ} (ha : 0 ≤ a) (hb : 0 ≤ b) (hc : 0 ≤ c)
    (hd : 0 ≤ d) : a + b + c + d = 0 ↔ a = 0 ∧ b = 0 ∧ c = 0 ∧ d = 0 := by
  constructor
  · intro h
    exact ⟨by linarith, by linarith, by linarith, by linarith⟩
  · rintro ⟨h1, h2, h3, h4⟩
    simp [h1, h2, h3, h4]

/-- C3, counterexample.  The claim says the statistic is zero iff observed
equals expected in all four cells.  On the table [[1, 2], [2, 1]] every margin
is 3, every expected frequency is 3/2 and every |observed - expected| is 1/2,
so the Yates-corrected statistic the code computes is exactly 0 although
observed differs from expected (cell (1,1) holds 1, not 3/2). -/
theorem c3_counterexample :
    posMargins ⟨1, 2, 2, 1⟩
      ∧ chi2_contingency ⟨1, 2, 2, 1⟩ = .ok 0
      ∧ (1 : ℚ) ≠ expA ⟨1, 2, 2, 1⟩ := by
  refine ⟨by decide, ?_, by norm_num [expA, Obs2x2.row1, Obs2x2.col1, Obs2x2.total]⟩
  rw [chi2_contingency_posMargins _ (by decide)]
  norm_num [yatesStat, yatesCellClosed, expA, expB, expC, expD,
    Obs2x2.row1, Obs2x2.row2, Obs2x2.col1, Obs2x2.col2, Obs2x2.total,
    abs_eq_max_neg, max_def, min_def]

/-- C3, amended.  On every 2 by 2 table with strictly positive margins the
statistic returned by chi2_contingency is non-negative, and it is zero if and
only if every cell's observed count is within 1/2 of its expected frequency
(the Yates correction flattens such tables to zero; exact equality of observed
and expected is sufficient but not necessary). -/
theorem c3_nonneg_zero_iff (t : Obs2x2) (h : posMargins t) :
    chi2_contingency t = .ok (yatesStat t) ∧ 0 ≤ yatesStat t ∧
      (yatesStat t = 0 ↔
        |(t.a : ℚ) - expA t| ≤ 1 / 2 ∧ |(t.b : ℚ) - expB t| ≤ 1 / 2 ∧
        |(t.c : ℚ) - expC t| ≤ 1 / 2 ∧ |(t.d : ℚ) - expD t| ≤ 1 / 2) := by
  obtain ⟨hA, hB, hC, hD⟩ := expected_pos t h
  have nA := yatesCellClosed_nonneg (t.a : ℚ) _ hA
  have nB := yatesCellClosed_nonneg (t.b : ℚ) _ hB
  have nC := yatesCellClosed_nonneg (t.c : ℚ) _ hC
  have nD := yatesCellClosed_nonneg (t.d : ℚ) _ hD
  refine ⟨chi2_contingency_posMargins t h, ?_, ?_⟩
  · unfold yatesStat
    linarith
  · unfold yatesStat
    rw [sum4_eq_zero_iff nA nB nC nD,
      yatesCellClosed_eq_zero_iff _ _ hA, yatesCellClosed_eq_zero_iff _ _ hB,
      yatesCellClosed_eq_zero_iff _ _ hC, yatesCellClosed_eq_zero_iff _ _ hD]

/-- C3, witness for the amended theorem at the table [[1, 2], [2, 1]]. -/
theorem c3_nonneg_zero_iff_witness :
    chi2_contingency ⟨1, 2, 2, 1⟩ = .ok (yatesStat ⟨1, 2, 2, 1⟩)
      ∧ 0 ≤ yatesStat ⟨1, 2, 2, 1⟩
      ∧ (yatesStat ⟨1, 2, 2, 1⟩ = 0 ↔
        |((1 : ℕ) : ℚ) - expA ⟨1, 2, 2, 1⟩| ≤ 1 / 2
          ∧ |((2 : ℕ) : ℚ) - expB ⟨1, 2, 2, 1⟩| ≤ 1 / 2
          ∧ |((2 : ℕ) : ℚ) - expC ⟨1, 2, 2, 1⟩| ≤ 1 / 2
          ∧ |((1 : ℕ) : ℚ) - expD ⟨1, 2, 2, 1⟩| ≤ 1 / 2) :=
  c3_nonneg_zero_iff ⟨1, 2, 2, 1⟩ (by decide)

/-- Python arithmetic error: dividing an int or float by zero raises
ZeroDivisionError. -/
inductive PyError where
  | zeroDivision
deriving DecidableEq, Repr

/-- Result dictionary of calculate_confidence_interval
(statistical_analysis.py, lines 35-60). -/
structure CIResult where
  difference : ℚ
  ci_lower : ℚ
  ci_upper : ℚ
  margin_of_error : ℚ
  relative_improvement : ℚ
deriving DecidableEq, Repr

/-- Embedding of calculate_confidence_interval.  Numeric values are exact
rationals; np.sqrt and scipy.stats.norm.ppf are abstract total parameters
(neither library raises on any input, they return NaN or infinities instead),
while Python's own division raises ZeroDivisionError on a zero divisor: at
p_a = clicks_a / total_a, at p_b = clicks_b / total_b, and at
relative_improvement = (p_b - p_a) / p_a while the result dictionary is being
built.  The source performs no input validation of its own. -/
def calculate_confidence_interval (sqrtF ppf : ℚ → ℚ)
    (clicks_a total_a clicks_b total_b : ℚ) (alpha : ℚ := 1 / 20) :
    Except PyError CIResult :=
  if total_a = 0 then .error .zeroDivision
  else if total_b = 0 then .error .zeroDivision
  else
    let p_a := clicks_a / total_a
    let p_b := clicks_b / total_b
    let diff := p_b - p_a
    let se := sqrtF (p_a * (1 - p_a) / total_a + p_b * (1 - p_b) / total_b)
    let z_score := ppf (1 - alpha / 2)
    let margin_of_error := z_score * se
    let ci_lower := diff - margin_of_error
    let ci_upper := diff + margin_of_error
    if p_a = 0 then .error .zeroDivision
    else .ok ⟨diff, ci_lower, ci_upper, margin_of_error, (p_b - p_a) / p_a⟩

/-- C2.  For total_a > 0 and total_b > 0 and any library sqrt and ppf,
calculate_confidence_interval raises ZeroDivisionError when the control rate
p_a = clicks_a / total_a is zero, and otherwise returns a bundle whose
relative_improvement is exactly (p_b - p_a) / p_a; a zero control rate never
silently yields a result. -/
theorem c2_relative_improvement (sqrtF ppf : ℚ → ℚ)
    (clicks_a total_a clicks_b total_b alpha : ℚ)
    (hA : 0 < total_a) (hB : 0 < total_b) :
    (clicks_a / total_a = 0 →
      calculate_confidence_interval sqrtF ppf clicks_a total_a clicks_b total_b alpha
        = .error .zeroDivision)
    ∧ (clicks_a / total_a ≠ 0 →
      ∃ r, calculate_confidence_interval sqrtF ppf clicks_a total_a clicks_b total_b alpha
          = .ok r
        ∧ r.relative_improvement
            = (clicks_b / total_b - clicks_a / total_a) / (clicks_a / total_a)) := by
  constructor
  · intro h0
    simp [calculate_confidence_interval, ne_of_gt hA, ne_of_gt hB, h0]
  · intro h0
    simp [calculate_confidence_interval, ne_of_gt hA, ne_of_gt hB, h0]

/-- C2, witness at clicks 0, 1 out of totals 2, 2 (control rate zero raises)
and at clicks 1, 1 out of totals 2, 2 (relative improvement 0). -/
theorem c2_relative_improvement_witness :
    ((0 : ℚ) / 2 = 0 →
      calculate_confidence_interval id id 0 2 1 2 (1 / 20) = .error .zeroDivision)
    ∧ ((0 : ℚ) / 2 ≠ 0 →
      ∃ r, calculate_confidence_interval id id 0 2 1 2 (1 / 20) = .ok r
        ∧ r.relative_improvement = ((1 : ℚ) / 2 - 0 / 2) / (0 / 2)) :=
  c2_relative_improvement id id 0 2 1 2 (1 / 20) (by norm_num) (by norm_num)

/-- C4, counterexample.  The claim says calculate_confidence_interval fails
with InvalidInputError whenever alpha is outside (0,1) and that no result
bundle is returned on such inputs.  The code contains no validation and no
InvalidInputError at all: at clicks 1, 1, totals 1, 1 and alpha = 2 it runs to
the end and returns the full bundle (library sqrt and ppf instantiated with
the identity; the real scipy ppf would contribute a NaN inside the bundle, but
a bundle is returned either way). -/
theorem c4_counterexample :
    calculate_confidence_interval id id 1 1 1 1 2 = .ok ⟨0, 0, 0, 0, 0⟩ := by
  norm_num [calculate_confidence_interval]

/-- C4, amended.  calculate_confidence_interval performs no input validation:
for every input and any library sqrt and ppf it either raises
ZeroDivisionError or returns a bundle, and the error occurs exactly when
total_a = 0, total_b = 0 or clicks_a = 0.  alpha is never inspected, so alpha
outside (0,1), like negative totals, still yields a bundle. -/
theorem c4_no_validation (sqrtF ppf : ℚ → ℚ)
    (clicks_a total_a clicks_b total_b alpha : ℚ) :
    (calculate_confidence_interval sqrtF ppf clicks_a total_a clicks_b total_b alpha
        = .error .zeroDivision
      ↔ (total_a = 0 ∨ total_b = 0 ∨ clicks_a = 0))
    ∧ (calculate_confidence_interval sqrtF ppf clicks_a total_a clicks_b total_b alpha
        = .error .zeroDivision
      ∨ ∃ r, calculate_confidence_interval sqrtF ppf clicks_a total_a clicks_b total_b alpha
          = .ok r) := by
  constructor
  · by_cases hA : total_a = 0
    · simp [calculate_confidence_interval, hA]
    by_cases hB : total_b = 0
    · simp [calculate_confidence_interval, hA, hB]
    by_cases hc : clicks_a = 0
    · simp [calculate_confidence_interval, hA, hB, hc]
    · simp [calculate_confidence_interval, hA, hB, hc, div_eq_zero_iff]
  · rcases hres : calculate_confidence_interval sqrtF ppf clicks_a total_a clicks_b total_b alpha
      with e | r
    · cases e
      exact Or.inl rfl
    · exact Or.inr ⟨r, rfl⟩

/-- C5.  Whenever calculate_confidence_interval returns a bundle (for positive
totals and alpha in (0,1)), the interval is exactly symmetric around the point
difference: ci_upper - difference and difference - ci_lower both equal
margin_of_error. -/
theorem c5_symmetric_interval (sqrtF ppf : ℚ → ℚ)
    (clicks_a total_a clicks_b total_b alpha : ℚ)
    (hA : 0 < total_a) (hB : 0 < total_b) (halo : 0 < alpha) (hahi : alpha < 1)
    (r : CIResult)
    (hr : calculate_confidence_interval sqrtF ppf clicks_a total_a clicks_b total_b alpha
      = .ok r) :
    r.ci_upper - r.difference = r.margin_of_error
      ∧ r.difference - r.ci_lower = r.margin_of_error := by
  simp only [calculate_confidence_interval, if_neg (ne_of_gt hA), if_neg (ne_of_gt hB)] at hr
  by_cases h0 : clicks_a / total_a = 0
  · rw [if_pos h0] at hr
    exact absurd hr (by simp)
  · rw [if_neg h0] at hr
    obtain rfl : r = _ := (Except.ok.inj hr).symm
    constructor <;> ring

/-- C5, witness at clicks 1, 1 out of totals 1, 1 with alpha = 1/20. -/
theorem c5_symmetric_interval_witness :
    (CIResult.mk 0 0 0 0 0).ci_upper - (CIResult.mk 0 0 0 0 0).difference
        = (CIResult.mk 0 0 0 0 0).margin_of_error
      ∧ (CIResult.mk 0 0 0 0 0).difference - (CIResult.mk 0 0 0 0 0).ci_lower
        = (CIResult.mk 0 0 0 0 0).margin_of_error :=
  c5_symmetric_interval id id 1 1 1 1 (1 / 20) (by norm_num) (by norm_num)
    (by norm_num) (by norm_num) ⟨0, 0, 0, 0, 0⟩
    (by norm_num [calculate_confidence_interval])

/-- Result dictionary of manual_power_analysis (statistical_analysis.py,
lines 62-105). -/
structure PowerResult where
  power : ℚ
  n_simulations : ℕ
  significant_detections : ℕ
deriving DecidableEq, Repr

/-- Contingency table built inside one simulation trial of
manual_power_analysis: clicks and no-clicks of each group, the no-click
counts being sample_size minus the binomial draw (which numpy keeps within
[0, sample_size]). -/
def trialTable (sample_size control_clicks treatment_clicks : ℕ) : Obs2x2 :=
  ⟨control_clicks, sample_size - control_clicks,
    treatment_clicks, sample_size - treatment_clicks⟩

/-- One simulation trial: draws i gives the two binomial outcomes of trial i
(numpy's seeded global generator abstracted as a deterministic outcome
stream), the 2 by 2 table is formed, scipy's chi-square test is run, and the
trial is significant iff its p-value sf(statistic) is below alpha. -/
def trialSignificant (draws : ℕ → ℕ × ℕ) (sf : ℚ → ℚ) (sample_size : ℕ)
    (alpha : ℚ) (i : ℕ) : Except ScipyError Bool :=
  (chi2_contingency (trialTable sample_size (draws i).1 (draws i).2)).map
    fun s => decide (sf s < alpha)

/-- Simulation loop of manual_power_analysis over the first k trials,
accumulating significant_results; the first trial on which
scipy.stats.chi2_contingency raises aborts the whole computation, as the
uncaught Python exception would. -/
def powerLoop (draws : ℕ → ℕ × ℕ) (sf : ℚ → ℚ) (sample_size : ℕ)
    (alpha : ℚ) : ℕ → Except ScipyError ℕ
  | 0 => .ok 0
  | k + 1 => do
    let prev ← powerLoop draws sf sample_size alpha k
    let b ← trialSignificant draws sf sample_size alpha k
    return prev + if b then 1 else 0

/-- Embedding of manual_power_analysis: run the simulation loop, then report
power = significant_results / n_simulations together with the raw counts.
The true rates control_ctr and treatment_ctr only shape the distribution of
the abstracted binomial stream draws, so they are not otherwise consumed. -/
def manual_power_analysis (draws : ℕ → ℕ × ℕ) (sf : ℚ → ℚ)
    (control_ctr treatment_ctr : ℚ) (sample_size : ℕ) (alpha : ℚ := 1 / 20)
    (n_simulations : ℕ := 10000) : Except ScipyError PowerResult :=
  (powerLoop draws sf sample_size alpha n_simulations).map fun (s : ℕ) =>
    ⟨(s : ℚ) / n_simulations, n_simulations, s⟩

/-- Number of the first n trials whose p-value falls below alpha, written
against the closed form of the trial statistic. -/
def detectedCount (draws : ℕ → ℕ × ℕ) (sf : ℚ → ℚ) (sample_size : ℕ)
    (alpha : ℚ) (n : ℕ) : ℕ :=
  ((List.range n).filter fun i =>
    sf (yatesStat (trialTable sample_size (draws i).1 (draws i).2)) < alpha).length

lemma trialTable_posMargins {n c1 c2 : ℕ} (h1 : c1 ≤ n) (h2 : c2 ≤ n)
    (h3 : 0 < c1 + c2) (h4 : c1 + c2 < 2 * n) :
    posMargins (trialTable n c1 c2) := by
  simp only [posMargins, trialTable, Obs2x2.row1, Obs2x2.row2, Obs2x2.col1,
    Obs2x2.col2]
  omega

lemma powerLoop_ok (draws : ℕ → ℕ × ℕ) (sf : ℚ → ℚ) (n : ℕ) (alpha : ℚ)
    (k : ℕ) (hvalid : ∀ i < k, posMargins (trialTable n (draws i).1 (draws i).2)) :
    powerLoop draws sf n alpha k = .ok (detectedCount draws sf n alpha k) := by
  induction k with
  | zero => simp [powerLoop, detectedCount]
  | succ k ih =>
    have hk := hvalid k (Nat.lt_succ_self k)
    rw [powerLoop, ih (fun i hi => hvalid i (hi.trans (Nat.lt_succ_self k)))]
    simp only [trialSignificant, chi2_contingency_posMargins _ hk, Except.map,
      detectedCount, List.range_succ, List.filter_append, List.length_append]
    by_cases hdet : sf (yatesStat (trialTable n (draws k).1 (draws k).2)) < alpha
      <;> simp [hdet, Except.bind, bind, pure, Except.pure]

/-- C6, counterexample.  The claim says every run with positive sample_size
and positive n_simulations returns power = significant_detections /
n_simulations.  With control and treatment rates both 0 (legal Binomial
parameters) every trial draws 0 clicks in both groups, the simulated table
[[0, 1], [0, 1]] has a zero expected frequency, scipy.stats.chi2_contingency
raises ValueError on the very first trial, and the function returns nothing at
all. -/
theorem c6_counterexample :
    manual_power_analysis (fun _ => (0, 0)) (fun _ => 1) 0 0 1 (1 / 20) 1
      = .error .zeroExpected := by
  have h : chi2_contingency (trialTable 1 0 0) = .error .zeroExpected := by
    norm_num [chi2_contingency, trialTable, expA, expB, expC, expD,
      Obs2x2.row1, Obs2x2.row2, Obs2x2.col1, Obs2x2.col2, Obs2x2.total]
  simp [manual_power_analysis, powerLoop, trialSignificant, h, Except.map,
    Except.bind, bind]

/-- C6, amended.  Provided every one of the n_simulations trials yields a
non-degenerate table (both binomial draws within [0, sample_size], at least
one click and at least one non-click across the two groups; otherwise scipy
raises on a zero expected frequency and nothing is returned),
manual_power_analysis counts a trial as detected iff its p-value is below
alpha, and returns power = significant_detections / n_simulations together
with the raw counts n_simulations and significant_detections. -/
theorem c6_power_counts (draws : ℕ → ℕ × ℕ) (sf : ℚ → ℚ)
    (control_ctr treatment_ctr : ℚ) (sample_size : ℕ) (alpha : ℚ)
    (n_simulations : ℕ) (hn : 0 < sample_size) (hsims : 0 < n_simulations)
    (hvalid : ∀ i < n_simulations,
      (draws i).1 ≤ sample_size ∧ (draws i).2 ≤ sample_size
        ∧ 0 < (draws i).1 + (draws i).2
        ∧ (draws i).1 + (draws i).2 < 2 * sample_size) :
    manual_power_analysis draws sf control_ctr treatment_ctr sample_size alpha
        n_simulations
      = .ok ⟨(detectedCount draws sf sample_size alpha n_simulations : ℚ)
          / n_simulations, n_simulations,
          detectedCount draws sf sample_size alpha n_simulations⟩ := by
  have hpm : ∀ i < n_simulations,
      posMargins (trialTable sample_size (draws i).1 (draws i).2) := by
    intro i hi
    obtain ⟨w1, w2, w3, w4⟩ := hvalid i hi
    exact trialTable_posMargins w1 w2 w3 w4
  unfold manual_power_analysis
  rw [powerLoop_ok draws sf sample_size alpha n_simulations hpm]
  simp [Except.map]

/-- C6, witness for the amended theorem: one trial at sample size 1 drawing
one control click and no treatment click, with a survival function that is
constantly 1, so the trial is not significant and power 0 is reported. -/
theorem c6_power_counts_witness :
    manual_power_analysis (fun _ => (1, 0)) (fun _ => 1) (1 / 10) (1 / 10) 1
        (1 / 20) 1
      = .ok ⟨(detectedCount (fun _ => (1, 0)) (fun _ => 1) 1 (1 / 20) 1 : ℚ) / 1,
          1, detectedCount (fun _ => (1, 0)) (fun _ => 1) 1 (1 / 20) 1⟩ :=
  c6_power_counts (fun _ => (1, 0)) (fun _ => 1) (1 / 10) (1 / 10) 1 (1 / 20) 1
    (by norm_num) (by norm_num) (by intro i _; norm_num)

/-- Row of the A/B-test dataframe as consumed by calculate_click_rates
(statistical_analysis.py, lines 10-18): the group label and the 0/1 click. -/
structure ObsAB where
  group : String
  clicked : ℕ
deriving DecidableEq, Repr

/-- Distinct group labels in pandas groupby order: the default sort=True
returns one row per distinct key, keys sorted. -/
def groupKeys (df : List ObsAB) : List String :=
  (df.map (·.group)).dedup.mergeSort (· ≤ ·)

/-- One row of the aggregation: count, clicks (sum) and ctr (mean) for one
group, the frame then being rounded to 4 decimals (integral columns are
unchanged by the rounding, so only ctr keeps it). -/
structure GroupAgg where
  count : ℕ
  clicks : ℕ
  ctr : ℚ
deriving DecidableEq, Repr

/-- Rounding of DataFrame.round(4): numpy half-to-even at 4 decimal places. -/
def roundHalfEven4 (q : ℚ) : ℚ :=
  let y := q * 10000
  let f := ⌊y⌋
  let r := y - f
  ((if r < 1 / 2 then f
    else if 1 / 2 < r then f + 1
    else if f % 2 = 0 then f else f + 1 : ℤ) : ℚ) / 10000

/-- Aggregation of one group: its rows, their count, their click sum and the
rounded click mean. -/
def groupAgg (df : List ObsAB) (g : String) : GroupAgg :=
  let rows := df.filter (·.group = g)
  ⟨rows.length, (rows.map (·.clicked)).sum,
    roundHalfEven4 (((rows.map (·.clicked)).sum : ℚ) / rows.length)⟩

/-- Embedding of calculate_click_rates: df.groupby('group')['clicked'].agg of
count, sum and mean, rounded to 4 decimals, keyed by the distinct group
labels present in the data.  No validation of any kind is performed. -/
def calculate_click_rates (df : List ObsAB) : List (String × GroupAgg) :=
  (groupKeys df).map fun g => (g, groupAgg df g)

/-- C7, counterexample.  The claim says the Group Aggregator fails with
ConfigurationError on a dataset with a single distinct group label.  The code
contains no validation and no ConfigurationError: on the one-group dataset
[("control", 1)] it returns the one-row summary (count 1, clicks 1, ctr 1). -/
theorem c7_counterexample :
    calculate_click_rates [⟨"control", 1⟩] = [("control", ⟨1, 1, 1⟩)] := by
  norm_num [calculate_click_rates, groupKeys, groupAgg, roundHalfEven4,
    List.dedup]

/-- C7, amended.  calculate_click_rates never raises: for every dataset it
returns one summary row per distinct group label present (the keys are
exactly the labels occurring in the data, without repetition), and the
summary is non-empty whenever the dataset is; in particular a single-group
dataset yields a one-row summary rather than a ConfigurationError. -/
theorem c7_no_configuration_error (df : List ObsAB) :
    ((calculate_click_rates df).map Prod.fst).Nodup
    ∧ (∀ g, g ∈ (calculate_click_rates df).map Prod.fst
        ↔ ∃ o ∈ df, o.group = g)
    ∧ (df ≠ [] → calculate_click_rates df ≠ []) := by
  have hkeys : (calculate_click_rates df).map Prod.fst = groupKeys df := by
    simp only [calculate_click_rates, List.map_map]
    have hcomp : (Prod.fst ∘ fun g => (g, groupAgg df g)) = id := rfl
    rw [hcomp, List.map_id]
  refine ⟨?_, ?_, ?_⟩
  · rw [hkeys]
    exact ((List.mergeSort_perm _ _).nodup_iff).mpr (List.nodup_dedup _)
  · intro g
    rw [hkeys]
    unfold groupKeys
    rw [List.mem_mergeSort, List.mem_dedup, List.mem_map]
  · intro hne hcc
    apply hne
    have h1 : groupKeys df = [] := by
      have := congrArg (List.map Prod.fst) hcc
      rw [hkeys] at this
      exact this
    have h2 : (df.map (·.group)).dedup = [] := by
      have hp := List.mergeSort_perm (df.map (·.group)).dedup
        (fun x1 x2 => decide (x1 ≤ x2))
      rw [show (df.map (·.group)).dedup.mergeSort (· ≤ ·) = [] from h1] at hp
      exact hp.symm.eq_nil
    have h3 : df.map (·.group) = [] := (List.dedup_eq_nil _).mp h2
    exact List.map_eq_nil_iff.mp h3

/-- C7, witness for the amended theorem at the one-group dataset
[("control", 1)]. -/
theorem c7_no_configuration_error_witness :
    ((calculate_click_rates [⟨"control", 1⟩]).map Prod.fst).Nodup
    ∧ (∀ g, g ∈ (calculate_click_rates [⟨"control", 1⟩]).map Prod.fst
        ↔ ∃ o ∈ [ObsAB.mk "control" 1], o.group = g)
    ∧ calculate_click_rates [⟨"control", 1⟩] ≠ [] :=
  ⟨(c7_no_configuration_error [⟨"control", 1⟩]).1,
    (c7_no_configuration_error [⟨"control", 1⟩]).2.1,
    (c7_no_configuration_error [⟨"control", 1⟩]).2.2 (by decide)⟩

/-- Embedding of calculate_effect_size (statistical_analysis.py, lines
107-111): Cohen's h through the arcsine transform, absolute value returned.
Real numbers model the floats; Real.sqrt and Real.arcsin model np.sqrt and
np.arcsin. -/
noncomputable def calculate_effect_size (control_ctr treatment_ctr : ℝ) : ℝ :=
  |2 * (Real.arcsin (Real.sqrt treatment_ctr) - Real.arcsin (Real.sqrt control_ctr))|

/-- C8.  For all rates in [0, 1], calculate_effect_size is symmetric in its
two arguments (the absolute value erases the sign flip of swapping) and
vanishes on equal rates. -/
theorem c8_effect_size_symm (p_a p_b : ℝ) (ha0 : 0 ≤ p_a) (ha1 : p_a ≤ 1)
    (hb0 : 0 ≤ p_b) (hb1 : p_b ≤ 1) :
    calculate_effect_size p_a p_b = calculate_effect_size p_b p_a
      ∧ calculate_effect_size p_a p_a = 0 := by
  constructor
  · unfold calculate_effect_size
    rw [← abs_neg]
    congr 1
    ring
  · unfold calculate_effect_size
    simp

/-- C8, witness at the pair of rates (0, 1). -/
theorem c8_effect_size_symm_witness :
    calculate_effect_size 0 1 = calculate_effect_size 1 0
      ∧ calculate_effect_size 0 0 = 0 :=
  c8_effect_size_symm 0 1 (by norm_num) (by norm_num) (by norm_num) (by norm_num)

/-- Row of the user-behavior table as consumed by clean_data
(data_cleaner.py, lines 13-27): full-row equality drives drop_duplicates and
only read_time is otherwise inspected. -/
structure BehaviorRow where
  user_id : String
  timestamp : ℤ
  page_category : String
  read_time : ℚ
deriving DecidableEq, Repr

/-- pandas DataFrame.drop_duplicates with default arguments: keep the first
occurrence of every full row, preserving order. -/
def dropDuplicates {α : Type} [DecidableEq α] : List α → List α
  | [] => []
  | x :: xs => x :: dropDuplicates (xs.filter (· ≠ x))
termination_by l => l.length
decreasing_by
  simp only [List.length_cons]
  exact Nat.lt_succ_of_le (List.length_filter_le _ _)

/-- Embedding of clean_data: drop duplicate rows, then keep the rows with
read_time strictly positive. -/
def clean_data (df : List BehaviorRow) : List BehaviorRow :=
  (dropDuplicates df).filter fun r => 0 < r.read_time

lemma mem_dropDuplicates {α : Type} [DecidableEq α] :
    ∀ (l : List α) (a : α), a ∈ dropDuplicates l ↔ a ∈ l := by
  have H : ∀ (n : ℕ) (l : List α), l.length ≤ n →
      ∀ a, (a ∈ dropDuplicates l ↔ a ∈ l) := by
    intro n
    induction n with
    | zero =>
      intro l hl a
      rw [Nat.le_zero, List.length_eq_zero] at hl
      subst hl
      rw [dropDuplicates]
    | succ n ih =>
      intro l hl a
      match l with
      | [] => rw [dropDuplicates]
      | x :: xs =>
        have hlen : (xs.filter (· ≠ x)).length ≤ n :=
          le_trans (List.length_filter_le _ _)
            (Nat.succ_le_succ_iff.mp hl)
        rw [dropDuplicates]
        simp only [List.mem_cons]
        constructor
        · rintro (rfl | h)
          · exact Or.inl rfl
          · exact Or.inr (List.mem_of_mem_filter ((ih _ hlen a).mp h))
        · rintro (rfl | h)
          · exact Or.inl rfl
          · by_cases hax : a = x
            · exact Or.inl hax
            · exact Or.inr ((ih _ hlen a).mpr
                (List.mem_filter.mpr ⟨h, by simp [hax]⟩))
  intro l a
  exact H l.length l le_rfl a

lemma nodup_dropDuplicates {α : Type} [DecidableEq α] :
    ∀ l : List α, (dropDuplicates l).Nodup := by
  have H : ∀ (n : ℕ) (l : List α), l.length ≤ n → (dropDuplicates l).Nodup := by
    intro n
    induction n with
    | zero =>
      intro l hl
      rw [Nat.le_zero, List.length_eq_zero] at hl
      subst hl
      rw [dropDuplicates]
      exact List.nodup_nil
    | succ n ih =>
      intro l hl
      match l with
      | [] =>
        rw [dropDuplicates]
        exact List.nodup_nil
      | x :: xs =>
        have hlen : (xs.filter (· ≠ x)).length ≤ n :=
          le_trans (List.length_filter_le _ _)
            (Nat.succ_le_succ_iff.mp hl)
        rw [dropDuplicates]
        refine List.nodup_cons.mpr ⟨?_, ih _ hlen⟩
        intro hmem
        have hx := (mem_dropDuplicates _ x).mp hmem
        have := (List.mem_filter.mp hx).2
        simp at this
  intro l
  exact H l.length l le_rfl

lemma dropDuplicates_eq_self {α : Type} [DecidableEq α] :
    ∀ l : List α, l.Nodup → dropDuplicates l = l := by
  have H : ∀ (n : ℕ) (l : List α), l.length ≤ n → l.Nodup →
      dropDuplicates l = l := by
    intro n
    induction n with
    | zero =>
      intro l hl _
      rw [Nat.le_zero, List.length_eq_zero] at hl
      subst hl
      rw [dropDuplicates]
    | succ n ih =>
      intro l hl hnd
      match l with
      | [] => rw [dropDuplicates]
      | x :: xs =>
        obtain ⟨hx, hxs⟩ := List.nodup_cons.mp hnd
        have hfil : xs.filter (· ≠ x) = xs := by
          rw [List.filter_eq_self]
          intro a ha
          simp only [ne_eq, decide_not, Bool.not_eq_eq_eq_not, Bool.not_true,
            decide_eq_false_iff_not]
          rintro rfl
          exact hx ha
        rw [dropDuplicates, hfil,
          ih xs (Nat.succ_le_succ_iff.mp hl) hxs]
  intro l hnd
  exact H l.length l le_rfl hnd

/-- C9.  clean_data is idempotent, its output holds no duplicate rows, and a
row is in the output exactly when it occurs in the input with read_time
strictly positive (fields untouched, since rows are only dropped, never
edited). -/
theorem c9_clean_data_idempotent (df : List BehaviorRow) :
    clean_data (clean_data df) = clean_data df
      ∧ (clean_data df).Nodup
      ∧ (∀ r, r ∈ clean_data df ↔ r ∈ df ∧ 0 < r.read_time) := by
  have hnd : ((dropDuplicates df).filter (fun r => decide (0 < r.read_time))).Nodup :=
    (nodup_dropDuplicates df).filter _
  refine ⟨?_, hnd, ?_⟩
  · unfold clean_data
    rw [dropDuplicates_eq_self _ hnd]
    rw [List.filter_filter]
    apply List.filter_congr
    intro r _
    simp
  · intro r
    unfold clean_data
    rw [List.mem_filter, mem_dropDuplicates]
    simp

/-- State of numpy's global legacy random generator, abstracted: the seed it
was last seeded with and the position reached in that seed's draw stream.
np.random.seed(s) resets it to position 0 of seed s. -/
structure RngState where
  seed : ℕ
  pos : ℕ
deriving DecidableEq, Repr

/-- One raw draw of the abstracted generator: the stream function u maps
(seed, position) to the raw word, and the position advances by one.  The
concrete Mersenne-Twister word function is the parameter u throughout. -/
def rngNext (u : ℕ → ℕ → ℕ) (s : RngState) : ℕ × RngState :=
  (u s.seed s.pos, ⟨s.seed, s.pos + 1⟩)

/-- np.random.seed(n): the global state becomes position 0 of seed n,
whatever it was before. -/
def npSeed (n : ℕ) : RngState := ⟨n, 0⟩

/-- np.random.choice(['control', 'treatment'], p=[0.5, 0.5]) for one user. -/
def drawGroup (u : ℕ → ℕ → ℕ) (s : RngState) : String × RngState :=
  let (w, s1) := rngNext u s
  (if w % 2 = 0 then "control" else "treatment", s1)

/-- np.random.binomial(1, p): one Bernoulli draw, the raw word mapped to a
uniform rational in [0, 1) and compared against p. -/
def drawBernoulli (u : ℕ → ℕ → ℕ) (p : ℚ) (s : RngState) : ℕ × RngState :=
  let (w, s1) := rngNext u s
  (if ((w % 2 ^ 53 : ℕ) : ℚ) / 2 ^ 53 < p then 1 else 0, s1)

/-- np.random.randint(lo, hi): one uniform integer draw in [lo, hi). -/
def drawRandint (u : ℕ → ℕ → ℕ) (lo hi : ℕ) (s : RngState) : ℕ × RngState :=
  let (w, s1) := rngNext u s
  (lo + w % (hi - lo), s1)

/-- Loop generating the n group labels, one np.random.choice draw each. -/
def drawGroups (u : ℕ → ℕ → ℕ) : ℕ → RngState → List String × RngState
  | 0, s => ([], s)
  | k + 1, s =>
    let (g, s1) := drawGroup u s
    let (gs, s2) := drawGroups u k s1
    (g :: gs, s2)

/-- Loop generating one click per group label: binomial(1, control_ctr) for
the control group, binomial(1, treatment_ctr) otherwise. -/
def drawClicks (u : ℕ → ℕ → ℕ) (control_ctr treatment_ctr : ℚ) :
    List String → RngState → List ℕ × RngState
  | [], s => ([], s)
  | g :: gs, s =>
    let (c, s1) := drawBernoulli u
      (if g = "control" then control_ctr else treatment_ctr) s
    let (cs, s2) := drawClicks u control_ctr treatment_ctr gs s1
    (c :: cs, s2)

/-- Loop generating the n timestamps: randint(0, 7) days and randint(0, 24)
hours past 2024-01-01, stored as whole hours since that start date. -/
def drawTimestamps (u : ℕ → ℕ → ℕ) : ℕ → RngState → List ℕ × RngState
  | 0, s => ([], s)
  | k + 1, s =>
    let (d, s1) := drawRandint u 0 7 s
    let (h, s2) := drawRandint u 0 24 s1
    let (ts, s3) := drawTimestamps u k s2
    ((24 * d + h) :: ts, s3)

/-- Zero-padded decimal of width 6, as the format string user_{i:06d} pads. -/
def pad6 (i : ℕ) : String :=
  let s := toString i
  String.mk (List.replicate (6 - s.length) '0') ++ s

/-- user_id of row i. -/
def userId (i : ℕ) : String := "user_" ++ pad6 i

/-- Row of the generated A/B-test dataframe: user_id, timestamp (hours since
2024-01-01), group, clicked. -/
structure ABRow where
  user_id : String
  timestamp : ℕ
  group : String
  clicked : ℕ
deriving DecidableEq, Repr

/-- Embedding of generate_ab_test_data (data_generator.py, lines 5-48).  It
takes the incoming global generator state (whatever earlier numpy calls left
behind, including any caller-supplied seeding) and immediately overwrites it
with np.random.seed(42); then it draws the n group labels, the n clicks and
the n timestamps in program order and zips them into the dataframe, returning
the dataframe and the final global state. -/
def generate_ab_test_data (u : ℕ → ℕ → ℕ) (control_ctr treatment_ctr : ℚ)
    (n_users : ℕ) (s0 : RngState) : List ABRow × RngState :=
  let s := npSeed 42
  let (groups, s1) := drawGroups u n_users s
  let (clicks, s2) := drawClicks u control_ctr treatment_ctr groups s1
  let (timestamps, s3) := drawTimestamps u n_users s2
  (((List.range n_users).zip (groups.zip (clicks.zip timestamps))).map
    fun p => ⟨userId p.1, p.2.2.2, p.2.1, p.2.2.1⟩, s3)

/-- C10.  generate_ab_test_data reseeds the global generator with the fixed
constant 42 on entry, so its output is independent of the incoming generator
state: for one and the same underlying stream function, two calls with the
same arguments from any two states return the identical dataset (groups,
clicks and timestamps included) and the identical final state.  Any
caller-supplied seeding beforehand is therefore irrelevant. -/
theorem c10_deterministic (u : ℕ → ℕ → ℕ) (control_ctr treatment_ctr : ℚ)
    (n_users : ℕ) (s1 s2 : RngState) :
    generate_ab_test_data u control_ctr treatment_ctr n_users s1
      = generate_ab_test_data u control_ctr treatment_ctr n_users s2 := rfl
